import Mathlib

/-!
Shallow embedding of `src/mcp-client/client.py` (class `MCPClient`), centred on
`process_query` (the turn engine) and `chat_loop` (the orchestrator loop).

Modelling decisions, each tied to a line of the source:

* Remote collaborators (`self.session.list_tools`, `self.session.call_tool`,
  `self.anthropic.messages.create`) are an environment record `Env` of
  deterministic fallible functions; a raised Python exception is `Except.error`
  carrying the exception's string rendering (what `chat_loop` shows via
  `str(e)`).
* A model response is its ordered list of content blocks; a block is either a
  `text` block or a `tool_use` block (`content.type` dispatch at lines
  104-106 of the source).
* Tool arguments (`content.input`, a Python dict) and tool results
  (`result.content`) are opaque payloads, modelled as `String`.
* The loop `for content in response.content:` captures the iterator of the
  FIRST response's content list; the rebinding of `response` inside the loop
  does not change what is iterated.  The embedding therefore recurses over the
  first response's block list only (`runBlocks`), exactly as the Python does.
* `if hasattr(content, 'text') and content.text:` inside the `tool_use` branch
  is always false: the SDK's tool-use block object has no `text` attribute, so
  no assistant message is ever appended.  The embedding omits the dead branch.
* `response.content[0].text` on a continuation response raises `IndexError`
  when the content list is empty and `AttributeError` when its first block is
  a tool-use block; `firstBlockText` models both failure modes.
* Observable remote interactions are logged as an `Event` trace so that claims
  about call counts, call order and history appends can be stated.
-/

deriving instance DecidableEq for Except

/-- A tool descriptor as returned by the server's `list_tools`
(`tool.name`, `tool.description`, `tool.inputSchema`). -/
structure ToolDescriptor where
  name : String
  description : String
  inputSchema : String
  deriving DecidableEq, Repr

/-- The dict `{"name": ..., "description": ..., "input_schema": ...}` built for
each tool and passed to the first `messages.create` call. -/
structure ToolSpec where
  name : String
  description : String
  input_schema : String
  deriving DecidableEq, Repr

/-- One entry of the `messages` history list: a dict with a `role` and a
`content` payload. -/
structure Message where
  role : String
  content : String
  deriving DecidableEq, Repr

/-- A content block of a model response: `content.type == 'text'` carries
`content.text`; `content.type == 'tool_use'` carries `content.name`,
`content.input` and the block id. -/
inductive ContentBlock where
  | text (t : String)
  | toolUse (name : String) (input : String) (blockId : String)
  deriving DecidableEq, Repr

/-- An observable remote interaction performed by `process_query`:
an LLM request (`messages.create`, with the `messages` list sent and the
optional `tools` parameter), a tool dispatch (`session.call_tool`), or an
append to the `messages` history list. -/
inductive Event where
  | llmCall (msgs : List Message) (tools : Option (List ToolSpec))
  | toolCall (name : String) (args : String)
  | histAppend (m : Message)
  deriving DecidableEq, Repr

/-- The deterministic remote collaborators of one `MCPClient`:
`session.list_tools()`, `anthropic.messages.create(...)` (a function of the
history sent and the optional tools parameter), and
`session.call_tool(name, args)`.  An `Except.error` is a raised exception,
carrying `str(e)`. -/
structure Env where
  list_tools : Except String (List ToolDescriptor)
  llm : List Message → Option (List ToolSpec) → Except String (List ContentBlock)
  call_tool : String → String → Except String String

/-- `response.content[0].text` on a continuation response: `IndexError` on an
empty content list, `AttributeError` when the first block is a tool-use block
(which has no `text` attribute). -/
def firstBlockText : List ContentBlock → Except String String
  | [] => .error "IndexError: list index out of range"
  | .text t :: _ => .ok t
  | .toolUse _ _ _ :: _ => .error "AttributeError: tool_use block has no attribute text"

/-- The f-string logged into `final_text` at each tool dispatch:
`[Calling tool {tool_name} with args {tool_args}]`. -/
def marker (name args : String) : String :=
  "[Calling tool " ++ name ++ " with args " ++ args ++ "]"

/-- The `available_tools` list built from the fetched catalog. -/
def availableToolsOf (tools : List ToolDescriptor) : List ToolSpec :=
  tools.map fun t => ⟨t.name, t.description, t.inputSchema⟩

/-- The body of `for content in response.content:` — the loop over the FIRST
response's content blocks.  Returns the `final_text` entries contributed by
the loop (in order) or the first raised exception, together with the trace of
remote interactions.  `msgs` is the current `messages` history.

* a `text` block appends `content.text` to `final_text`;
* a `tool_use` block dispatches `call_tool` (an exception propagates,
  aborting the loop), appends the marker to `final_text`, appends the tool
  result to `messages` as a user message, re-invokes the LLM WITHOUT the
  `tools` parameter, and appends `response.content[0].text` of that
  continuation response to `final_text`. -/
def runBlocks (env : Env) : List ContentBlock → List Message →
    Except String (List String) × List Event
  | [], _ => (.ok [], [])
  | .text t :: rest, msgs =>
    ((runBlocks env rest msgs).1.map fun l => t :: l,
      (runBlocks env rest msgs).2)
  | .toolUse name input _ :: rest, msgs =>
    match env.call_tool name input with
    | .error e => (.error e, [.toolCall name input])
    | .ok result =>
      let msgs' := msgs ++ [⟨"user", result⟩]
      match env.llm msgs' none with
      | .error e =>
        (.error e, [.toolCall name input, .histAppend ⟨"user", result⟩,
          .llmCall msgs' none])
      | .ok cont =>
        match firstBlockText cont with
        | .error e =>
          (.error e, [.toolCall name input, .histAppend ⟨"user", result⟩,
            .llmCall msgs' none])
        | .ok contText =>
          ((runBlocks env rest msgs').1.map fun l =>
              marker name input :: contText :: l,
            .toolCall name input :: .histAppend ⟨"user", result⟩ ::
              .llmCall msgs' none :: (runBlocks env rest msgs').2)

/-- `MCPClient.process_query(query)`: initialise `messages` with the user
query, fetch the catalog, make the first LLM call (with `tools`), run the
block loop, and return `"\n".join(final_text)` — or the first raised
exception.  The second component is the trace of remote interactions. -/
def process_query (env : Env) (query : String) :
    Except String String × List Event :=
  let messages : List Message := [⟨"user", query⟩]
  match env.list_tools with
  | .error e => (.error e, [])
  | .ok tools =>
    let available_tools := availableToolsOf tools
    match env.llm messages (some available_tools) with
    | .error e => (.error e, [.llmCall messages (some available_tools)])
    | .ok content =>
      ((runBlocks env content messages).1.map (String.intercalate "\n"),
        .llmCall messages (some available_tools) ::
          (runBlocks env content messages).2)

/-- Python's `str.strip()` with no argument: remove leading and trailing
whitespace. -/
def pyStrip (s : String) : String :=
  ⟨((s.toList.dropWhile Char.isWhitespace).reverse.dropWhile
      Char.isWhitespace).reverse⟩

/-- Python's `str.lower()` (the inputs of interest are ASCII). -/
def pyLower (s : String) : String :=
  ⟨s.toList.map Char.toLower⟩

/-- The per-query body of `chat_loop`'s `try`: the displayed string is
`"\n" + response` on success and `f"\nError: {str(e)}"` on a caught
exception. -/
def handleQuery (env : Env) (query : String) : String :=
  match (process_query env query).1 with
  | .ok res => "\n" ++ res
  | .error e => "\nError: " ++ e

/-- `MCPClient.chat_loop` over a given sequence of user inputs: each input is
stripped; `'quit'` (case-insensitively) breaks the loop; otherwise the query
is processed and its display string collected, and the loop continues with
the next input. -/
def chat_loop (env : Env) : List String → List String
  | [] => []
  | q :: rest =>
    let query := pyStrip q
    if pyLower query == "quit" then []
    else handleQuery env query :: chat_loop env rest

/-- Number of `tool_use` blocks in a response. -/
def numToolUses (blocks : List ContentBlock) : Nat :=
  (blocks.filter fun b => match b with
    | .toolUse _ _ _ => true
    | _ => false).length

/-- Number of LLM requests in a trace. -/
def numLLMCalls (evs : List Event) : Nat :=
  (evs.filter fun e => match e with
    | .llmCall _ _ => true
    | _ => false).length

/-- Number of tool dispatches in a trace. -/
def numToolCalls (evs : List Event) : Nat :=
  (evs.filter fun e => match e with
    | .toolCall _ _ => true
    | _ => false).length

/-- The `tools` parameter of each LLM request of a trace, in order. -/
def llmToolArgs (evs : List Event) : List (Option (List ToolSpec)) :=
  evs.filterMap fun e => match e with
    | .llmCall _ ts => some ts
    | _ => none

/-- The marker string a block contributes, if it is a tool-use block. -/
def markerOf : ContentBlock → Option String
  | .toolUse name input _ => some (marker name input)
  | _ => none

/-- The text of a block, if it is a text block. -/
def textOf : ContentBlock → Option String
  | .text t => some t
  | _ => none

/-- The `messages` history reconstructed from a trace: the initial user query
followed by every appended message, in order. -/
def historyOf (query : String) (evs : List Event) : List Message :=
  ⟨"user", query⟩ :: evs.filterMap fun e => match e with
    | .histAppend m => some m
    | _ => none

/-- The trace the block loop produces on a fully successful run, described
block by block: a text block interacts with nothing; each tool-use block
contributes exactly its dispatch, then exactly one history append of its
result, then the continuation LLM request (without tools) on the extended
history — in emission order.  (The error branch is unreachable when the run
succeeds.) -/
def okTrace (env : Env) : List ContentBlock → List Message → List Event
  | [], _ => []
  | .text _ :: rest, msgs => okTrace env rest msgs
  | .toolUse name input _ :: rest, msgs =>
    match env.call_tool name input with
    | .error _ => []
    | .ok result =>
      let msgs' := msgs ++ [⟨"user", result⟩]
      .toolCall name input :: .histAppend ⟨"user", result⟩ ::
        .llmCall msgs' none :: okTrace env rest msgs'

/-! ### Concrete environments used as test inputs

Each is a deterministic mock of the two remote collaborators (LLM and tool
server), used to instantiate theorems and to exhibit counterexamples. -/

/-- Scenario-B-style environment: the first response asks for the `add` tool,
the continuation response answers in text; the tool returns `5`. -/
def envDemo : Env where
  list_tools := .ok [⟨"add", "adds two numbers", "schema-add"⟩]
  llm := fun msgs _ts =>
    if msgs.length == 1 then
      .ok [.text "I will add", .toolUse "add" "(2,3)" "tu1"]
    else
      .ok [.text "The sum is 5"]
  call_tool := fun _name _input => .ok "5"

/-- Environment whose continuation response itself contains a tool-use block
(after a leading text block): that block is never dispatched by the code. -/
def envDropped : Env where
  list_tools := .ok [⟨"a", "tool a", "s"⟩, ⟨"b", "tool b", "s"⟩]
  llm := fun msgs _ts =>
    if msgs.length == 1 then .ok [.toolUse "a" "x" "tu1"]
    else .ok [.text "t", .toolUse "b" "y" "tu2"]
  call_tool := fun name _input => .ok ("res-" ++ name)

/-- Environment in which EVERY response contains a tool-use block (the
first-call response is a bare tool request; every continuation response is
`Text, ToolUse`), so a round-limited engine would have to cut it off. -/
def envLoop : Env where
  list_tools := .ok [⟨"t", "tool t", "s"⟩]
  llm := fun _msgs ts =>
    match ts with
    | some _ => .ok [.toolUse "t" "a" "tu1"]
    | none => .ok [.text "x", .toolUse "t" "a" "tu2"]
  call_tool := fun _ _ => .ok "r"

/-- Environment whose single (first) response consists of two text blocks. -/
def envTwoTexts : Env where
  list_tools := .ok []
  llm := fun _ _ => .ok [.text "a", .text "b"]
  call_tool := fun _ _ => .error "unused"

/-- Environment whose catalog fetch fails before any LLM call. -/
def envProtoErr : Env where
  list_tools := .error "ProtocolError: malformed server response"
  llm := fun _ _ => .ok [.text "unreachable"]
  call_tool := fun _ _ => .ok "unreachable"

/-- Environment whose tool dispatch raises a tool-execution failure. -/
def envToolFail : Env where
  list_tools := .ok [⟨"add", "adds two numbers", "schema-add"⟩]
  llm := fun _msgs ts =>
    match ts with
    | some _ => .ok [.text "calling", .toolUse "add" "(2,3)" "tu1"]
    | none => .ok [.text "unreachable"]
  call_tool := fun _ _ => .error "ToolExecutionError: server reported failure"

/-- Environment with an EMPTY tool catalog whose first response nevertheless
requests a tool named `ghost`; the tool server happily answers. -/
def envGhost : Env where
  list_tools := .ok []
  llm := fun _msgs ts =>
    match ts with
    | some _ => .ok [.toolUse "ghost" "g" "tu1"]
    | none => .ok [.text "done"]
  call_tool := fun _ _ => .ok "r"

/-! ### Helper lemmas about the block loop -/

/-- `Except.map` of the identity is the identity. -/
theorem exceptMap_id {α β : Type} (x : Except α β) : x.map (fun b => b) = x := by
  cases x <;> rfl

/-- Every LLM request issued from inside the block loop omits the `tools`
parameter. -/
theorem runBlocks_llm_none (env : Env) (blocks : List ContentBlock) :
    ∀ (msgs ms : List Message) (ts : Option (List ToolSpec)),
      Event.llmCall ms ts ∈ (runBlocks env blocks msgs).2 → ts = none := by
  induction blocks with
  | nil => intro msgs ms ts h; simp [runBlocks] at h
  | cons b rest ih =>
    intro msgs ms ts h
    cases b with
    | text t =>
      simp only [runBlocks] at h
      exact ih msgs ms ts h
    | toolUse name input blockId =>
      rcases hc : env.call_tool name input with e | result
      · simp [runBlocks, hc] at h
      · rcases hl : env.llm (msgs ++ [⟨"user", result⟩]) none with e | cont
        · simp [runBlocks, hc, hl] at h
          exact h.2
        · rcases hf : firstBlockText cont with e | contText
          · simp [runBlocks, hc, hl, hf] at h
            exact h.2
          · simp only [runBlocks, hc, hl, hf, List.mem_cons] at h
            rcases h with h | h | h | h
            · exact absurd h (by simp)
            · exact absurd h (by simp)
            · exact (Event.llmCall.injEq _ _ _ _).mp h |>.2
            · exact ih _ ms ts h

/-- On a run of the block loop that returns normally, the trace is exactly
`okTrace`: per tool-use block, in emission order, one dispatch, then one
history append of its result, then one continuation LLM request. -/
theorem runBlocks_ok_trace (env : Env) (blocks : List ContentBlock) :
    ∀ (msgs : List Message) (fts : List String),
      (runBlocks env blocks msgs).1 = .ok fts →
      (runBlocks env blocks msgs).2 = okTrace env blocks msgs := by
  induction blocks with
  | nil => intro msgs fts _; simp [runBlocks, okTrace]
  | cons b rest ih =>
    intro msgs fts h
    cases b with
    | text t =>
      simp only [runBlocks, okTrace]
      rcases hr : (runBlocks env rest msgs).1 with e | l
      · rw [runBlocks] at h; rw [hr] at h; simp [Except.map] at h
      · exact ih msgs l hr
    | toolUse name input blockId =>
      rcases hc : env.call_tool name input with e | result
      · simp [runBlocks, hc] at h
      · rcases hl : env.llm (msgs ++ [⟨"user", result⟩]) none with e | cont
        · simp [runBlocks, hc, hl] at h
        · rcases hf : firstBlockText cont with e | contText
          · simp [runBlocks, hc, hl, hf] at h
          · simp only [runBlocks, okTrace, hc, hl, hf]
            rcases hr : (runBlocks env rest (msgs ++ [⟨"user", result⟩])).1
              with e | l
            · simp only [runBlocks, hc, hl, hf] at h
              rw [hr] at h; simp [Except.map] at h
            · simp only [List.cons.injEq, true_and]
              exact ih _ l hr

/-- On a run of the block loop that returns normally, the number of LLM
requests it issues and the number of tool dispatches both equal the number of
tool-use blocks iterated. -/
theorem runBlocks_ok_counts (env : Env) (blocks : List ContentBlock) :
    ∀ (msgs : List Message) (fts : List String),
      (runBlocks env blocks msgs).1 = .ok fts →
      numLLMCalls (runBlocks env blocks msgs).2 = numToolUses blocks ∧
      numToolCalls (runBlocks env blocks msgs).2 = numToolUses blocks := by
  induction blocks with
  | nil => intro msgs fts _; simp [runBlocks, numLLMCalls, numToolCalls, numToolUses]
  | cons b rest ih =>
    intro msgs fts h
    cases b with
    | text t =>
      rcases hr : (runBlocks env rest msgs).1 with e | l
      · rw [runBlocks] at h; rw [hr] at h; simp [Except.map] at h
      · have := ih msgs l hr
        simpa [runBlocks, numToolUses, List.filter] using this
    | toolUse name input blockId =>
      rcases hc : env.call_tool name input with e | result
      · simp [runBlocks, hc] at h
      · rcases hl : env.llm (msgs ++ [⟨"user", result⟩]) none with e | cont
        · simp [runBlocks, hc, hl] at h
        · rcases hf : firstBlockText cont with e | contText
          · simp [runBlocks, hc, hl, hf] at h
          · rcases hr : (runBlocks env rest (msgs ++ [⟨"user", result⟩])).1
              with e | l
            · simp only [runBlocks, hc, hl, hf] at h
              rw [hr] at h; simp [Except.map] at h
            · have := ih _ l hr
              simp only [runBlocks, hc, hl, hf]
              simp [numLLMCalls, numToolCalls, numToolUses, List.filter_cons]
                at this ⊢
              omega

/-- On a run of the block loop that returns normally, the dispatch markers
appear in the produced `final_text` entries as an order-preserving
subsequence: one marker per tool-use block, at that block's position. -/
theorem runBlocks_ok_sublist (env : Env) (blocks : List ContentBlock) :
    ∀ (msgs : List Message) (fts : List String),
      (runBlocks env blocks msgs).1 = .ok fts →
      (blocks.filterMap markerOf).Sublist fts := by
  induction blocks with
  | nil => intro msgs fts h; simp [runBlocks] at h; simp [← h]
  | cons b rest ih =>
    intro msgs fts h
    cases b with
    | text t =>
      rcases hr : (runBlocks env rest msgs).1 with e | l
      · rw [runBlocks] at h; rw [hr] at h; simp [Except.map] at h
      · rw [runBlocks] at h; rw [hr] at h
        simp only [Except.map, Except.ok.injEq] at h
        subst h
        simpa [List.filterMap_cons, markerOf] using (ih msgs l hr).cons t
    | toolUse name input blockId =>
      rcases hc : env.call_tool name input with e | result
      · simp [runBlocks, hc] at h
      · rcases hl : env.llm (msgs ++ [⟨"user", result⟩]) none with e | cont
        · simp [runBlocks, hc, hl] at h
        · rcases hf : firstBlockText cont with e | contText
          · simp [runBlocks, hc, hl, hf] at h
          · rcases hr : (runBlocks env rest (msgs ++ [⟨"user", result⟩])).1
              with e | l
            · simp only [runBlocks, hc, hl, hf] at h
              rw [hr] at h; simp [Except.map] at h
            · simp only [runBlocks, hc, hl, hf] at h
              rw [hr] at h
              simp only [Except.map, Except.ok.injEq] at h
              subst h
              simp only [List.filterMap_cons, markerOf]
              exact ((ih _ l hr).cons contText).cons₂ (marker name input)

/-- On a run of the block loop that returns normally, every tool-use block
iterated gives rise to a dispatch event for exactly its name and arguments. -/
theorem runBlocks_ok_toolCall_mem (env : Env) (blocks : List ContentBlock) :
    ∀ (msgs : List Message) (fts : List String) (name input blockId : String),
      (runBlocks env blocks msgs).1 = .ok fts →
      ContentBlock.toolUse name input blockId ∈ blocks →
      Event.toolCall name input ∈ (runBlocks env blocks msgs).2 := by
  induction blocks with
  | nil => intro msgs fts name input blockId _ hm; simp at hm
  | cons b rest ih =>
    intro msgs fts name input blockId h hm
    cases b with
    | text t =>
      rcases hr : (runBlocks env rest msgs).1 with e | l
      · rw [runBlocks] at h; rw [hr] at h; simp [Except.map] at h
      · rcases List.mem_cons.mp hm with hb | hb
        · exact absurd hb (by simp)
        · simpa [runBlocks] using ih msgs l name input blockId hr hb
    | toolUse n a bid =>
      rcases hc : env.call_tool n a with e | result
      · simp [runBlocks, hc] at h
      · rcases hl : env.llm (msgs ++ [⟨"user", result⟩]) none with e | cont
        · simp [runBlocks, hc, hl] at h
        · rcases hf : firstBlockText cont with e | contText
          · simp [runBlocks, hc, hl, hf] at h
          · rcases hr : (runBlocks env rest (msgs ++ [⟨"user", result⟩])).1
              with e | l
            · simp only [runBlocks, hc, hl, hf] at h
              rw [hr] at h; simp [Except.map] at h
            · rcases List.mem_cons.mp hm with hb | hb
              · rcases ContentBlock.toolUse.injEq .. ▸ hb with ⟨h1, h2, _⟩
                simp [runBlocks, hc, hl, hf, h1, h2]
              · simp only [runBlocks, hc, hl, hf, List.mem_cons]
                exact Or.inr (Or.inr (Or.inr (ih _ l name input blockId hr hb)))

/-- A response consisting only of text blocks drives no remote interaction at
all: the loop returns the block texts in order and an empty trace. -/
theorem runBlocks_allText (env : Env) (ts : List String) :
    ∀ msgs : List Message,
      runBlocks env (ts.map ContentBlock.text) msgs = (.ok ts, []) := by
  induction ts with
  | nil => intro msgs; simp [runBlocks]
  | cons t rest ih =>
    intro msgs
    simp [runBlocks, ih msgs, Except.map]

/-- A run over a list of leading text blocks followed by further blocks
prepends the texts to the loop's `final_text` output and leaves the trace
unchanged. -/
theorem runBlocks_textLead (env : Env) (ts : List String) :
    ∀ (blocks : List ContentBlock) (msgs : List Message),
      runBlocks env (ts.map ContentBlock.text ++ blocks) msgs =
        ((runBlocks env blocks msgs).1.map fun l => ts ++ l,
          (runBlocks env blocks msgs).2) := by
  induction ts with
  | nil =>
    intro blocks msgs
    simp [exceptMap_id]
  | cons t rest ih =>
    intro blocks msgs
    rw [List.map_cons, List.cons_append, runBlocks, ih blocks msgs]
    rcases hr : (runBlocks env blocks msgs).1 with e | l <;>
      simp [Except.map, hr]

/-- When every tool dispatch succeeds and every continuation response begins
with a text block, the block loop returns normally, whatever the blocks. -/
theorem runBlocks_ok_of (env : Env)
    (htool : ∀ name input, ∃ r, env.call_tool name input = .ok r)
    (hcont : ∀ msgs, ∃ t rest,
      env.llm msgs none = .ok (ContentBlock.text t :: rest)) :
    ∀ (blocks : List ContentBlock) (msgs : List Message),
      ∃ fts, (runBlocks env blocks msgs).1 = .ok fts := by
  intro blocks
  induction blocks with
  | nil => intro msgs; exact ⟨[], rfl⟩
  | cons b rest ih =>
    intro msgs
    cases b with
    | text t =>
      obtain ⟨l, hl⟩ := ih msgs
      exact ⟨t :: l, by simp [runBlocks, hl, Except.map]⟩
    | toolUse name input blockId =>
      obtain ⟨r, hr⟩ := htool name input
      obtain ⟨t2, rest2, hr2⟩ := hcont (msgs ++ [⟨"user", r⟩])
      obtain ⟨l, hl⟩ := ih (msgs ++ [⟨"user", r⟩])
      refine ⟨marker name input :: t2 :: l, ?_⟩
      simp [runBlocks, hr, hr2, firstBlockText, hl, Except.map]

/-! ### Claims -/

/-- C1 (counterexample): the invariant does NOT extend to responses produced
by continuation calls.  In `envDropped` the continuation response observed
after the first tool dispatch contains the block `ToolUse b y`, yet the query
returns normally and the trace contains no dispatch of `b`: the block is
silently dropped, with no `callTool` invocation and no history append for it
before the query ends. -/
theorem c1_counterexample :
    envDropped.llm [⟨"user", "q"⟩, ⟨"user", "res-a"⟩] none =
      .ok [.text "t", .toolUse "b" "y" "tu2"] ∧
    (process_query envDropped "q").1 = .ok "[Calling tool a with args x]\nt" ∧
    Event.toolCall "b" "y" ∉ (process_query envDropped "q").2 := by
  decide

/-- C1 (amended): for every query that returns normally, every `ToolUse`
block of the FIRST model response is followed, before the next LLM call, by
exactly one corresponding `callTool` invocation and exactly one history
append of its result, in block emission order, and no block of the first
response is reordered or dropped — the full trace is the first LLM request
followed by `okTrace` of the first response's blocks.  (`ToolUse` blocks of
continuation responses, by contrast, are never dispatched; only the first
block's text of each continuation response is read.) -/
theorem c1_first_response_trace (env : Env) (q : String)
    (cat : List ToolDescriptor) (blocks : List ContentBlock) (ans : String)
    (hlt : env.list_tools = .ok cat)
    (hllm : env.llm [⟨"user", q⟩] (some (availableToolsOf cat)) = .ok blocks)
    (hok : (process_query env q).1 = .ok ans) :
    (process_query env q).2 =
      .llmCall [⟨"user", q⟩] (some (availableToolsOf cat)) ::
        okTrace env blocks [⟨"user", q⟩] := by
  simp only [process_query, hlt, hllm] at hok ⊢
  rcases hr : (runBlocks env blocks [⟨"user", q⟩]).1 with e | fts
  · rw [hr] at hok; simp [Except.map] at hok
  · rw [runBlocks_ok_trace env blocks _ fts hr]

/-- C1 (witness): the amended invariant at the Scenario-B environment. -/
theorem c1_first_response_trace_witness :
    (process_query envDemo "Add 2 and 3").2 =
      .llmCall [⟨"user", "Add 2 and 3"⟩]
          (some (availableToolsOf [⟨"add", "adds two numbers", "schema-add"⟩])) ::
        okTrace envDemo [.text "I will add", .toolUse "add" "(2,3)" "tu1"]
          [⟨"user", "Add 2 and 3"⟩] :=
  c1_first_response_trace envDemo "Add 2 and 3"
    [⟨"add", "adds two numbers", "schema-add"⟩]
    [.text "I will add", .toolUse "add" "(2,3)" "tu1"]
    "I will add\n[Calling tool add with args (2,3)]\nThe sum is 5"
    (by decide) (by decide) (by decide)

/-- C2 (counterexample): the turn engine imposes NO round limit and has no
`TurnLimitExceeded` failure.  In `envLoop` every response the model can
produce contains a `ToolUse` block (`Text, ToolUse` alternation with no
terminating all-text response), yet the query does not fail once any cap is
exceeded: it returns normally after exactly two LLM calls, because only the
first response's blocks are ever iterated. -/
theorem c2_counterexample :
    (process_query envLoop "q").1 = .ok "[Calling tool t with args a]\nx" ∧
    numLLMCalls (process_query envLoop "q").2 = 2 ∧
    numToolCalls (process_query envLoop "q").2 = 1 := by
  decide

/-- C2 (amended): the code contains no explicit round limit, and none is
needed for termination: even against a model that requests a tool in every
response (every continuation response is `Text, ToolUse, ...`) and a tool
server that always answers, the query terminates normally — with exactly
`1 + k` LLM calls where `k` is the number of `ToolUse` blocks of the first
response — instead of either looping indefinitely or failing with
`TurnLimitExceeded`. -/
theorem c2_no_round_limit_terminates (env : Env) (q : String)
    (cat : List ToolDescriptor) (blocks : List ContentBlock)
    (hlt : env.list_tools = .ok cat)
    (hllm : env.llm [⟨"user", q⟩] (some (availableToolsOf cat)) = .ok blocks)
    (htool : ∀ name input, ∃ r, env.call_tool name input = .ok r)
    (hcont : ∀ msgs, ∃ t name input blockId rest, env.llm msgs none =
      .ok (ContentBlock.text t :: ContentBlock.toolUse name input blockId :: rest)) :
    ∃ ans, (process_query env q).1 = .ok ans ∧
      numLLMCalls (process_query env q).2 = 1 + numToolUses blocks := by
  have hcont' : ∀ msgs, ∃ t rest,
      env.llm msgs none = .ok (ContentBlock.text t :: rest) := by
    intro msgs
    obtain ⟨t, name, input, blockId, rest, h⟩ := hcont msgs
    exact ⟨t, ContentBlock.toolUse name input blockId :: rest, h⟩
  obtain ⟨fts, hfts⟩ := runBlocks_ok_of env htool hcont' blocks [⟨"user", q⟩]
  refine ⟨String.intercalate "\n" fts, ?_, ?_⟩
  · simp [process_query, hlt, hllm, hfts, Except.map]
  · have := (runBlocks_ok_counts env blocks [⟨"user", q⟩] fts hfts).1
    simp [process_query, hlt, hllm, numLLMCalls, List.filter_cons]
    simp [numLLMCalls] at this
    omega

/-- C2 (witness): the amended statement at `envLoop` (one `ToolUse` block in
the first response, hence exactly two LLM calls and normal termination). -/
theorem c2_no_round_limit_terminates_witness :
    ∃ ans, (process_query envLoop "q").1 = .ok ans ∧
      numLLMCalls (process_query envLoop "q").2 =
        1 + numToolUses [.toolUse "t" "a" "tu1"] :=
  c2_no_round_limit_terminates envLoop "q" [⟨"t", "tool t", "s"⟩]
    [.toolUse "t" "a" "tu1"] (by decide) (by decide)
    (fun _name _input => ⟨"r", rfl⟩)
    (fun _msgs => ⟨"x", "t", "a", "tu2", [], rfl⟩)

/-- C3 (counterexample): when the single response contains two `Text` blocks
`a` and `b`, the returned answer is `"a\nb"` — the blocks joined with a
newline — not their plain concatenation `"ab"`. -/
theorem c3_counterexample :
    (process_query envTwoTexts "q").1 = .ok "a\nb" ∧
    (process_query envTwoTexts "q").1 ≠ .ok ("a" ++ "b") := by
  decide

/-- C3 (amended): for every query whose first model response contains zero
`ToolUse` blocks, `process_query` terminates after exactly one LLM round (a
single `messages.create` request and no `callTool` invocation at all), and
the returned answer equals that response's `Text` block contents, in emission
order, joined with newline separators (`"\n".join`) — which coincides with
plain concatenation only when there is at most one `Text` block. -/
theorem c3_single_round_newline_join (env : Env) (q : String)
    (cat : List ToolDescriptor) (ts : List String)
    (hlt : env.list_tools = .ok cat)
    (hllm : env.llm [⟨"user", q⟩] (some (availableToolsOf cat)) =
      .ok (ts.map ContentBlock.text)) :
    process_query env q =
      (.ok (String.intercalate "\n" ts),
        [.llmCall [⟨"user", q⟩] (some (availableToolsOf cat))]) := by
  simp [process_query, hlt, hllm, runBlocks_allText, Except.map]

/-- C3 (witness): the amended statement at `envTwoTexts`. -/
theorem c3_single_round_newline_join_witness :
    process_query envTwoTexts "q" =
      (.ok (String.intercalate "\n" ["a", "b"]),
        [.llmCall [⟨"user", "q"⟩] (some (availableToolsOf []))]) :=
  c3_single_round_newline_join envTwoTexts "q" [] ["a", "b"]
    (by decide) (by decide)

/-- C4: query-scoped failures never escape the orchestrator's per-query
handler.  When `list_tools` fails before any LLM call, the query performs no
remote interaction at all (`trace = []`), the failure is rendered as the
displayable string `"\nError: " ++ e` for that query, and the loop goes on to
process the remaining inputs unchanged — the session stays usable. -/
theorem c4_orchestrator_converts_errors (env : Env) (q : String) (e : String)
    (rest : List String)
    (hlt : env.list_tools = .error e)
    (hq : (pyLower (pyStrip q) == "quit") = false) :
    process_query env (pyStrip q) = (.error e, []) ∧
    handleQuery env (pyStrip q) = "\nError: " ++ e ∧
    chat_loop env (q :: rest) = ("\nError: " ++ e) :: chat_loop env rest := by
  have h1 : process_query env (pyStrip q) = (.error e, []) := by
    simp [process_query, hlt]
  have h2 : handleQuery env (pyStrip q) = "\nError: " ++ e := by
    simp [handleQuery, h1]
  exact ⟨h1, h2, by simp [chat_loop, hq, h2]⟩

/-- C4 (witness): Scenario D at `envProtoErr`, with one later query still
processed by the loop. -/
theorem c4_orchestrator_converts_errors_witness :
    process_query envProtoErr (pyStrip "hello") =
      (.error "ProtocolError: malformed server response", []) ∧
    handleQuery envProtoErr (pyStrip "hello") =
      "\nError: " ++ "ProtocolError: malformed server response" ∧
    chat_loop envProtoErr ["hello", "quit"] =
      ("\nError: " ++ "ProtocolError: malformed server response") ::
        chat_loop envProtoErr ["quit"] :=
  c4_orchestrator_converts_errors envProtoErr "hello"
    "ProtocolError: malformed server response" ["quit"] (by decide) (by decide)

/-- C5: a failing tool dispatch is not retried and ends the query at once.
If the first response is some `Text` blocks followed by a `ToolUse` whose
dispatch fails, the whole run is the initial LLM request followed by exactly
one dispatch of that tool — no second dispatch, no history append, and no
further LLM call after the failure — and the failure string becomes the
user-visible display for that query. -/
theorem c5_tool_failure_terminates (env : Env) (q : String)
    (cat : List ToolDescriptor) (ts : List String)
    (name input blockId : String) (rest : List ContentBlock) (e : String)
    (hlt : env.list_tools = .ok cat)
    (hllm : env.llm [⟨"user", q⟩] (some (availableToolsOf cat)) =
      .ok (ts.map ContentBlock.text ++
        ContentBlock.toolUse name input blockId :: rest))
    (hfail : env.call_tool name input = .error e) :
    process_query env q =
      (.error e,
        [.llmCall [⟨"user", q⟩] (some (availableToolsOf cat)),
          .toolCall name input]) ∧
    handleQuery env q = "\nError: " ++ e := by
  have h1 : runBlocks env
      (ts.map ContentBlock.text ++
        ContentBlock.toolUse name input blockId :: rest) [⟨"user", q⟩] =
      (.error e, [.toolCall name input]) := by
    rw [runBlocks_textLead]
    simp [runBlocks, hfail, Except.map]
  have h2 : process_query env q =
      (.error e,
        [.llmCall [⟨"user", q⟩] (some (availableToolsOf cat)),
          .toolCall name input]) := by
    simp [process_query, hlt, hllm, h1, Except.map]
  exact ⟨h2, by simp [handleQuery, h2]⟩

/-- C5 (witness): Scenario C at `envToolFail`. -/
theorem c5_tool_failure_terminates_witness :
    process_query envToolFail "Add 2 and 3" =
      (.error "ToolExecutionError: server reported failure",
        [.llmCall [⟨"user", "Add 2 and 3"⟩]
            (some (availableToolsOf [⟨"add", "adds two numbers", "schema-add"⟩])),
          .toolCall "add" "(2,3)"]) ∧
    handleQuery envToolFail "Add 2 and 3" =
      "\nError: " ++ "ToolExecutionError: server reported failure" :=
  c5_tool_failure_terminates envToolFail "Add 2 and 3"
    [⟨"add", "adds two numbers", "schema-add"⟩] ["calling"]
    "add" "(2,3)" "tu1" [] "ToolExecutionError: server reported failure"
    (by decide) (by decide) (by decide)

/-- C6 (counterexample): no catalog validation happens before dispatch.  In
`envGhost` the last-fetched catalog is EMPTY, yet for the block
`ToolUse ghost g` the transport call IS made (`toolCall ghost g` is in the
trace) and the query returns normally instead of failing with
`ToolNotFound`. -/
theorem c6_counterexample :
    envGhost.list_tools = .ok [] ∧
    Event.toolCall "ghost" "g" ∈ (process_query envGhost "q").2 ∧
    (process_query envGhost "q").1 = .ok "[Calling tool ghost with args g]\ndone" := by
  decide

/-- C6 (amended): the turn engine performs NO validation of the requested
tool name against the last-fetched catalog: on every normally-returning run,
every `ToolUse` block of the first response is dispatched to the transport —
the hypotheses place no constraint whatsoever relating `name` to `cat`, and
the conclusion holds even when `name` names no catalog entry. -/
theorem c6_no_catalog_validation (env : Env) (q : String)
    (cat : List ToolDescriptor) (blocks : List ContentBlock) (ans : String)
    (name input blockId : String)
    (hlt : env.list_tools = .ok cat)
    (hllm : env.llm [⟨"user", q⟩] (some (availableToolsOf cat)) = .ok blocks)
    (hok : (process_query env q).1 = .ok ans)
    (hmem : ContentBlock.toolUse name input blockId ∈ blocks) :
    Event.toolCall name input ∈ (process_query env q).2 := by
  simp only [process_query, hlt, hllm] at hok ⊢
  rcases hr : (runBlocks env blocks [⟨"user", q⟩]).1 with e | fts
  · rw [hr] at hok; simp [Except.map] at hok
  · exact List.mem_cons.mpr (Or.inr
      (runBlocks_ok_toolCall_mem env blocks [⟨"user", q⟩] fts
        name input blockId hr hmem))

/-- C6 (witness): the amended statement at `envGhost`, whose catalog is empty
and therefore certainly does not contain `ghost`. -/
theorem c6_no_catalog_validation_witness :
    Event.toolCall "ghost" "g" ∈ (process_query envGhost "q").2 :=
  c6_no_catalog_validation envGhost "q" [] [.toolUse "ghost" "g" "tu1"]
    "[Calling tool ghost with args g]\ndone" "ghost" "g" "tu1"
    (by decide) (by decide) (by decide) (by decide)

/-- C7: within one query the tool catalog is sent only on the first LLM call.
Whenever the catalog fetch succeeds, the trace starts with the first LLM
request carrying `tools = available_tools`, and every LLM request after it —
i.e. every continuation call made after appending a tool result — carries no
`tools` parameter. -/
theorem c7_tools_only_first_call (env : Env) (q : String)
    (cat : List ToolDescriptor)
    (hlt : env.list_tools = .ok cat) :
    ∃ evs', (process_query env q).2 =
        .llmCall [⟨"user", q⟩] (some (availableToolsOf cat)) :: evs' ∧
      ∀ (ms : List Message) (ts : Option (List ToolSpec)),
        Event.llmCall ms ts ∈ evs' → ts = none := by
  rcases hllm : env.llm [⟨"user", q⟩] (some (availableToolsOf cat))
    with e | content
  · refine ⟨[], ?_, ?_⟩
    · simp [process_query, hlt, hllm]
    · intro ms ts h; simp at h
  · refine ⟨(runBlocks env content [⟨"user", q⟩]).2, ?_, ?_⟩
    · simp [process_query, hlt, hllm]
    · exact fun ms ts h => runBlocks_llm_none env content [⟨"user", q⟩] ms ts h

/-- C7 (witness): the statement at the Scenario-B environment. -/
theorem c7_tools_only_first_call_witness :
    ∃ evs', (process_query envDemo "Add 2 and 3").2 =
        .llmCall [⟨"user", "Add 2 and 3"⟩]
          (some (availableToolsOf
            [⟨"add", "adds two numbers", "schema-add"⟩])) :: evs' ∧
      ∀ (ms : List Message) (ts : Option (List ToolSpec)),
        Event.llmCall ms ts ∈ evs' → ts = none :=
  c7_tools_only_first_call envDemo "Add 2 and 3"
    [⟨"add", "adds two numbers", "schema-add"⟩] (by decide)

/-- C8: on every query that returns normally, `process_query` makes exactly
`1 + k` LLM calls and exactly `k` tool calls, where `k` is the number of
`tool_use` blocks of the FIRST model response — the block loop iterates only
the first response's content, so blocks of continuation responses beyond the
first never produce calls, and the loop (a structural recursion here) always
terminates. -/
theorem c8_call_counts (env : Env) (q : String)
    (cat : List ToolDescriptor) (blocks : List ContentBlock) (ans : String)
    (hlt : env.list_tools = .ok cat)
    (hllm : env.llm [⟨"user", q⟩] (some (availableToolsOf cat)) = .ok blocks)
    (hok : (process_query env q).1 = .ok ans) :
    numLLMCalls (process_query env q).2 = 1 + numToolUses blocks ∧
    numToolCalls (process_query env q).2 = numToolUses blocks := by
  simp only [process_query, hlt, hllm] at hok ⊢
  rcases hr : (runBlocks env blocks [⟨"user", q⟩]).1 with e | fts
  · rw [hr] at hok; simp [Except.map] at hok
  · have h := runBlocks_ok_counts env blocks [⟨"user", q⟩] fts hr
    simp [numLLMCalls, numToolCalls, List.filter_cons] at h ⊢
    omega

/-- C8 (witness): at `envDemo` the first response holds one `tool_use` block,
so exactly two LLM calls and one tool call occur. -/
theorem c8_call_counts_witness :
    numLLMCalls (process_query envDemo "Add 2 and 3").2 =
      1 + numToolUses [.text "I will add", .toolUse "add" "(2,3)" "tu1"] ∧
    numToolCalls (process_query envDemo "Add 2 and 3").2 =
      numToolUses [.text "I will add", .toolUse "add" "(2,3)" "tu1"] :=
  c8_call_counts envDemo "Add 2 and 3"
    [⟨"add", "adds two numbers", "schema-add"⟩]
    [.text "I will add", .toolUse "add" "(2,3)" "tu1"]
    "I will add\n[Calling tool add with args (2,3)]\nThe sum is 5"
    (by decide) (by decide) (by decide)

/-- C9: whenever a normally-returning query dispatched at least one tool, the
answer is not purely model text: it is the newline-join of a segment list
that contains, for each `tool_use` block of the first response and at that
block's position (the markers form an order-preserving subsequence of the
segments), the string `[Calling tool {name} with args {args}]`. -/
theorem c9_markers_in_answer (env : Env) (q : String)
    (cat : List ToolDescriptor) (blocks : List ContentBlock) (ans : String)
    (name input blockId : String)
    (hlt : env.list_tools = .ok cat)
    (hllm : env.llm [⟨"user", q⟩] (some (availableToolsOf cat)) = .ok blocks)
    (hok : (process_query env q).1 = .ok ans)
    (hmem : ContentBlock.toolUse name input blockId ∈ blocks) :
    ∃ fts, ans = String.intercalate "\n" fts ∧
      (blocks.filterMap markerOf).Sublist fts ∧
      marker name input ∈ fts := by
  simp only [process_query, hlt, hllm] at hok
  rcases hr : (runBlocks env blocks [⟨"user", q⟩]).1 with e | fts
  · rw [hr] at hok; simp [Except.map] at hok
  · rw [hr] at hok
    simp only [Except.map, Except.ok.injEq] at hok
    have hsub := runBlocks_ok_sublist env blocks [⟨"user", q⟩] fts hr
    refine ⟨fts, hok.symm, hsub, ?_⟩
    exact hsub.subset (List.mem_filterMap.mpr ⟨_, hmem, rfl⟩)

/-- C9 (witness): at `envDemo` the answer contains the marker
`[Calling tool add with args (2,3)]` between the two model texts. -/
theorem c9_markers_in_answer_witness :
    ∃ fts,
      "I will add\n[Calling tool add with args (2,3)]\nThe sum is 5" =
        String.intercalate "\n" fts ∧
      ([ContentBlock.text "I will add",
        ContentBlock.toolUse "add" "(2,3)" "tu1"].filterMap markerOf).Sublist
        fts ∧
      marker "add" "(2,3)" ∈ fts :=
  c9_markers_in_answer envDemo "Add 2 and 3"
    [⟨"add", "adds two numbers", "schema-add"⟩]
    [.text "I will add", .toolUse "add" "(2,3)" "tu1"]
    "I will add\n[Calling tool add with args (2,3)]\nThe sum is 5"
    "add" "(2,3)" "tu1" (by decide) (by decide) (by decide) (by decide)

/-- Processing a block of non-quit inputs is independent of what follows:
the loop handles them one at a time with no state carried between queries. -/
theorem chat_loop_append (env : Env) (qs : List String) :
    ∀ ps : List String,
      (∀ p ∈ ps, (pyLower (pyStrip p) == "quit") = false) →
      chat_loop env (ps ++ qs) = chat_loop env ps ++ chat_loop env qs := by
  intro ps
  induction ps with
  | nil => intro _; simp [chat_loop]
  | cons p ps' ih =>
    intro hps
    have hp := hps p (List.mem_cons_self p ps')
    simp [chat_loop, hp, ih fun x hx => hps x (List.mem_cons_of_mem p hx)]

/-- C10: `process_query` reads no mutable cross-query state — in the
embedding it is a pure function of the query and the deterministic remote
responses — so the orchestrator loop is compositional: the outputs for a
prefix of non-quit queries do not depend on later inputs, and submitting the
same query twice in a row yields two displays that are the SAME function
application `handleQuery env (pyStrip q)`, hence identical answer strings and
identical history shapes. -/
theorem c10_query_independence (env : Env) (ps qs : List String) (q : String)
    (hps : ∀ p ∈ ps, (pyLower (pyStrip p) == "quit") = false)
    (hq : (pyLower (pyStrip q) == "quit") = false) :
    chat_loop env (ps ++ qs) = chat_loop env ps ++ chat_loop env qs ∧
    chat_loop env (q :: q :: qs) =
      handleQuery env (pyStrip q) :: handleQuery env (pyStrip q) ::
        chat_loop env qs := by
  refine ⟨chat_loop_append env qs ps hps, ?_⟩
  simp [chat_loop, hq]

/-- C10 (witness): at `envDemo`, with a one-query prefix and the query
`What is 2+2?` submitted twice. -/
theorem c10_query_independence_witness :
    chat_loop envDemo (["hello"] ++ ["world"]) =
      chat_loop envDemo ["hello"] ++ chat_loop envDemo ["world"] ∧
    chat_loop envDemo ("What is 2+2?" :: "What is 2+2?" :: ["world"]) =
      handleQuery envDemo (pyStrip "What is 2+2?") ::
        handleQuery envDemo (pyStrip "What is 2+2?") ::
        chat_loop envDemo ["world"] :=
  c10_query_independence envDemo ["hello"] ["world"] "What is 2+2?"
    (by decide) (by decide)
